import Mathlib

/-!
Verification development for the relay/dispatch engine of `src/bot.py`, a chat
translation relay. The Python program is shallowly embedded: text is
`List Char`, channel ids and message markers are `Nat`, the fallible external
collaborators (translation backend, channel lookup, operator notification) are
oracles bundled in `Env`, and an uncaught Python exception is `Except.error ()`.
All definitions are direct translations of the functions in `src/bot.py`
(line references are given at each definition).
-/

/-- Reply context of a message (`msg.reference.resolved` in `bot.py`): the
quoted author's display name and the quoted original-language text. -/
structure Reply where
  authorName : List Char
  content : List Char
deriving DecidableEq, Repr

/-- An inbound message / history item: Discord snowflake id (`msg.id`), the
channel it lives in, the two author flags tested by the bot
(`msg.author.bot`, `msg.webhook_id`), its text and optional reply context. -/
structure Msg where
  mid : Nat
  channel : Nat
  authorBot : Bool
  webhookId : Bool
  content : List Char
  reply : Option Reply
deriving DecidableEq, Repr

/-- An external post performed through `webhook.send`: target channel and the
full text content actually sent. -/
structure Post where
  channel : Nat
  text : List Char
deriving DecidableEq, Repr

/-- Oracles for the external collaborators of `bot.py`:
`tr lang text` is `translator.translate_text(text, target_lang=lang)`
(`none` models a raised translation exception); `chOk c` is whether
`bot.get_channel(c)` returns a channel; `admin` is `ADMIN_USER_ID` being
configured (line 13); `adminOk c` is whether the escalation DM
`admin.send(...)` about a failure at destination `c` itself succeeds. -/
structure Env where
  tr : String → List Char → Option (List Char)
  chOk : Nat → Bool
  admin : Bool
  adminOk : Nat → Bool

/-- The flag-emoji → DeepL language-code table, `FLAG_LANG_MAP` (lines 31-35). -/
def FLAG_LANG_MAP : List (String × String) :=
  [("🇫🇷", "FR"), ("🇪🇸", "ES"), ("🇯🇵", "JA"), ("🇩🇪", "DE"), ("🇨🇳", "ZH"),
   ("🇷🇺", "RU"), ("🇮🇹", "IT"), ("🇰🇷", "KO"), ("🇺🇸", "EN-US"), ("🇬🇧", "EN-GB"),
   ("🇬🇷", "EL"), ("🇸🇦", "AR")]

/-- The fixed chunk size used by `translate_history` (`chunk_size = 1900`,
line 153 of `bot.py`). -/
def chunk_size : Nat := 1900

/-- The fixed-width split of `translate_history` (lines 154-156):
`for i in range(0, len(translated_text), chunk_size): translated_text[i:i+chunk_size]`.
`range(0, n, k)` visits `k*0, k*1, ...` for `ceil(n/k) = (n+k-1)/k` iterations,
and the slice `t[i:i+k]` is `(t.drop i).take k`. -/
def chunkText (t : List Char) : List (List Char) :=
  (List.range ((t.length + (chunk_size - 1)) / chunk_size)).map
    (fun i => (t.drop (chunk_size * i)).take chunk_size)

/-- The reply-quote resolution inside `send_webhook` (lines 72-78): try to
translate the quoted text into the destination language; a raised translation
exception is caught locally and the original text is kept. -/
def resolveReplyText (env : Env) (lang : String) (rc : List Char) : List Char :=
  match env.tr lang rc with
  | some t => t
  | none => rc

/-- The quote line prepended by `send_webhook` (line 79):
`f"↪️ Replying to {reply_to.author.display_name}: {reply_text}\n\n"`. -/
def quoteHeader (authorName replyText : List Char) : List Char :=
  "↪️ Replying to ".data ++ authorName ++ ": ".data ++ replyText ++ "\n\n".data

/-- The text actually passed to `webhook.send` by `send_webhook`
(lines 72-86): the caller's text, with the translated-or-original quote line
prepended when a reply context is present. All three call sites pass a
`target_lang`. -/
def buildPostText (env : Env) (lang : String) (reply : Option Reply)
    (text : List Char) : List Char :=
  match reply with
  | none => text
  | some r => quoteHeader r.authorName (resolveReplyText env lang r.content) ++ text

/-- A posting identity (Discord webhook): transport-assigned id and name. -/
structure Webhook where
  wid : Nat
  name : String
deriving DecidableEq, Repr

/-- The fixed recognizable webhook name used by `send_webhook` (lines 68-70). -/
def WEBHOOK_NAME : String := "TranslatorBot"

/-- `discord.utils.get(webhooks, name="TranslatorBot")` (line 68): first
webhook in the channel's list whose name matches. -/
def findWebhook (hooks : List Webhook) : Option Webhook :=
  hooks.find? (fun w => w.name == WEBHOOK_NAME)

/-- The identity acquisition of `send_webhook` (lines 67-70): look the webhook
up by name in the channel's current webhook list; create (append) one only
when none exists. `freshId` is the transport-assigned id of a newly created
webhook. Returns the acquired webhook and the channel's updated webhook
list. -/
def acquireWebhook (hooks : List Webhook) (freshId : Nat) :
    Webhook × List Webhook :=
  match findWebhook hooks with
  | some w => (w, hooks)
  | none => (⟨freshId, WEBHOOK_NAME⟩, hooks ++ [⟨freshId, WEBHOOK_NAME⟩])

/-- One destination of the live fan-out in `on_message` (lines 181-197):
skip the source channel itself and unresolvable channels; translate; on
success post the built text; on a raised translation exception, log and — when
an operator is configured — DM the operator, which itself may raise
(uncaught). Returns the posts made and the number of operator escalations
sent, or `Except.error ()` for an uncaught exception. -/
def liveDest (env : Env) (msg : Msg) (d : Nat × String) :
    Except Unit (List Post × Nat) :=
  if d.1 = msg.channel then Except.ok ([], 0)
  else if env.chOk d.1 = false then Except.ok ([], 0)
  else
    match env.tr d.2 msg.content with
    | some t => Except.ok ([⟨d.1, buildPostText env d.2 msg.reply t⟩], 0)
    | none =>
      if env.admin then
        if env.adminOk d.1 then Except.ok ([], 1) else Except.error ()
      else Except.ok ([], 0)

/-- One destination of the backfill fan-out in `translate_history`
(lines 144-161): as `liveDest`, but the translated text is cut into
`chunk_size` slices and each slice posted separately through `send_webhook`
(which prepends the quote line to each slice). -/
def histDest (env : Env) (src : Nat) (m : Msg) (d : Nat × String) :
    Except Unit (List Post × Nat) :=
  if d.1 = src then Except.ok ([], 0)
  else if env.chOk d.1 = false then Except.ok ([], 0)
  else
    match env.tr d.2 m.content with
    | some t =>
      Except.ok ((chunkText t).map
        (fun c => (⟨d.1, buildPostText env d.2 m.reply c⟩ : Post)), 0)
    | none =>
      if env.admin then
        if env.adminOk d.1 then Except.ok ([], 1) else Except.error ()
      else Except.ok ([], 0)

/-- Sequential iteration over `linked_channels.items()` (line 144 / line 181):
each destination is handled in order; an uncaught exception at one destination
aborts the loop (Python `for` semantics). Accumulates posts and escalation
count. -/
def runDests (f : Nat × String → Except Unit (List Post × Nat)) :
    List (Nat × String) → Except Unit (List Post × Nat)
  | [] => Except.ok ([], 0)
  | d :: rest =>
    match f d with
    | Except.error e => Except.error e
    | Except.ok (ps, es) =>
      match runDests f rest with
      | Except.error e => Except.error e
      | Except.ok (ps2, es2) => Except.ok (ps ++ ps2, es + es2)

/-- The live-message handler `on_message` (lines 171-197): ignore bot/webhook
authors; return with no external effect when the source channel has no
registry entry; otherwise fan out to every linked destination. -/
def on_message (env : Env) (reg : List (Nat × String)) (msg : Msg) :
    Except Unit (List Post × Nat) :=
  if msg.authorBot || msg.webhookId then Except.ok ([], 0)
  else if (reg.any (fun e => e.1 == msg.channel)) = false then Except.ok ([], 0)
  else runDests (liveDest env msg) reg

/-- The flag-reaction handler `on_raw_reaction_add` (lines 200-224): ignore
the bot's own reactions and unrecognized emoji; ignore bot/webhook-authored
messages; otherwise translate into the flag's language and post a single
(auto-deleted) copy to the same channel; a raised translation exception is
escalated like in `on_message`. The link registry is never consulted. -/
def on_raw_reaction_add (env : Env) (reactorIsSelf : Bool) (emoji : String)
    (chan : Nat) (msg : Msg) : Except Unit (List Post × Nat) :=
  if reactorIsSelf then Except.ok ([], 0)
  else
    match FLAG_LANG_MAP.find? (fun e => e.1 == emoji) with
    | none => Except.ok ([], 0)
    | some fl =>
      if msg.authorBot || msg.webhookId then Except.ok ([], 0)
      else
        match env.tr fl.2 msg.content with
        | some t => Except.ok ([⟨chan, buildPostText env fl.2 msg.reply t⟩], 0)
        | none =>
          if env.admin then
            if env.adminOk chan then Except.ok ([], 1) else Except.error ()
          else Except.ok ([], 0)

/-- Accumulated state of one `translate_history` run: posts made so far,
escalations sent, the in-memory `last_id` (line 135/163) and the relayed-item
counter `count` (line 136/164). -/
structure HState where
  posts : List Post
  escalations : Nat
  lastId : Nat
  relayed : Nat
deriving DecidableEq, Repr

/-- Processing of one history item in `translate_history` (lines 138-164):
skip bot/webhook authors and items at or below the current `last_id`;
otherwise fan out to all destinations, then set `last_id` to this item's id
and increment `count`. -/
def stepHist (env : Env) (reg : List (Nat × String)) (src : Nat)
    (st : HState) (m : Msg) : Except Unit HState :=
  if m.authorBot || m.webhookId then Except.ok st
  else if m.mid ≤ st.lastId then Except.ok st
  else
    match runDests (histDest env src m) reg with
    | Except.error e => Except.error e
    | Except.ok (ps, es) =>
      Except.ok ⟨st.posts ++ ps, st.escalations + es, m.mid, st.relayed + 1⟩

/-- The `async for msg in channel.history(...)` loop of `translate_history`
(lines 138-164), oldest first; an uncaught exception aborts the whole loop. -/
def runHist (env : Env) (reg : List (Nat × String)) (src : Nat) :
    List Msg → HState → Except Unit HState
  | [], st => Except.ok st
  | m :: rest, st =>
    match stepHist env reg src st m with
    | Except.error e => Except.error e
    | Except.ok st2 => runHist env reg src rest st2

/-- The watermark write `last_translated[str(channel.id)] = last_id`
(line 166): an unconditional assignment into the store. -/
def writeWatermark (store : Nat → Nat) (c : Nat) (v : Nat) : Nat → Nat :=
  fun x => if x = c then v else store x

/-- The backfill command `translate_history` (lines 128-168): early return
when no channels are linked at all; otherwise read the stored watermark
(`last_translated.get(str(channel.id), 0)`, line 135, modelled as `store src`
over a total store defaulting to 0), run the history loop, and finally write
`last_id` back into the store. `hist` is the item list returned by
`channel.history(limit=limit, oldest_first=True)`. Returns the final loop
state and the updated watermark store. -/
def translate_history (env : Env) (reg : List (Nat × String)) (src : Nat)
    (hist : List Msg) (store : Nat → Nat) :
    Except Unit (HState × (Nat → Nat)) :=
  if reg = [] then Except.ok (⟨[], 0, store src, 0⟩, store)
  else
    match runHist env reg src hist ⟨[], 0, store src, 0⟩ with
    | Except.error e => Except.error e
    | Except.ok st => Except.ok (st, writeWatermark store src st.lastId)

/-- Projection of a per-destination result, used to state that a completed
fan-out is the independent combination of its per-destination outcomes. -/
def okPart (r : Except Unit (List Post × Nat)) : List Post × Nat :=
  match r with
  | Except.ok x => x
  | Except.error _ => ([], 0)

/-- The item filter of the backfill loop relative to a watermark `L`: not
bot-authored, not webhook-authored, marker strictly above `L`
(lines 139-141). -/
def elig (L : Nat) (m : Msg) : Bool :=
  !m.authorBot && !m.webhookId && decide (L < m.mid)

/-- Running maximum of message markers starting from `L`; the value
`last_id` holds after the backfill loop. -/
def maxMid (L : Nat) (l : List Msg) : Nat :=
  l.foldl (fun a m => max a m.mid) L

/-! ### Concrete fixtures used by counterexamples and witnesses -/

/-- Environment whose translator always succeeds with the text `T`, all
channels resolvable, no operator configured. -/
def env0 : Env := ⟨fun _ _ => some "T".data, fun _ => true, false, fun _ => true⟩

/-- A one-entry registry: channel 2 receives French. -/
def reg0 : List (Nat × String) := [(2, "FR")]

/-- An all-zero watermark store (no prior progress for any channel). -/
def store0 : Nat → Nat := fun _ => 0

/-- A plain human message with marker 3 in channel 1, no reply context. -/
def m3 : Msg := ⟨3, 1, false, false, "a".data, none⟩

/-- A plain human message with marker 5 in channel 1, no reply context. -/
def m5 : Msg := ⟨5, 1, false, false, "b".data, none⟩

/-- A bot-authored (but not webhook-authored) history item with marker 5. -/
def mBot : Msg := ⟨5, 1, true, false, "hi".data, none⟩

/-- A one-item history containing only `m3`. -/
def histA : List Msg := [m3]

/-- A two-item history: `m3` then `m5` (oldest first). -/
def histB : List Msg := [m3, m5]

/-- Environment whose translator raises exactly for target language `"FR"`,
with an operator configured whose escalation DM fails when it concerns
destination channel 2. -/
def envC1 : Env :=
  ⟨fun l _ => if l = "FR" then none else some "X".data,
   fun _ => true, true, fun c => !(c == 2)⟩

/-- As `envC1` but every escalation DM succeeds. -/
def envC1b : Env :=
  ⟨fun l _ => if l = "FR" then none else some "X".data,
   fun _ => true, true, fun _ => true⟩

/-- A three-entry registry: channel 1 → American English, channel 2 → French,
channel 3 → Spanish. -/
def regC1 : List (Nat × String) := [(1, "EN-US"), (2, "FR"), (3, "ES")]

/-- A plain human live message in channel 1. -/
def msgC1 : Msg := ⟨10, 1, false, false, "hi".data, none⟩

/-- A 5000-character text. -/
def t5000 : List Char := List.replicate 5000 'a'

/-- Environment whose translator always returns the 5000-character text
`t5000`, all channels resolvable, no operator configured. -/
def envL : Env := ⟨fun _ _ => some t5000, fun _ => true, false, fun _ => true⟩

/-- A two-entry registry: channel 1 → American English, channel 2 → French. -/
def reg3 : List (Nat × String) := [(1, "EN-US"), (2, "FR")]

/-- A plain human message in channel 1 with marker 7 and no reply context. -/
def msgC3 : Msg := ⟨7, 1, false, false, "hi".data, none⟩

/-- Environment whose translator succeeds on the text `"hi"` (returning
`"bon"`) and raises on any other text — in particular on the quoted reply
text `"orig"` — with an operator configured and escalation always working. -/
def env7 : Env :=
  ⟨fun _ c => if c = "hi".data then some "bon".data else none,
   fun _ => true, true, fun _ => true⟩

/-- A plain human message in channel 1 whose reply context quotes author
`"bob"` saying `"orig"`. -/
def msg7 : Msg := ⟨9, 1, false, false, "hi".data, some ⟨"bob".data, "orig".data⟩⟩

/-- Environment whose translator always raises, with an operator configured
and escalation always working. -/
def envFail : Env := ⟨fun _ _ => none, fun _ => true, true, fun _ => true⟩

/-! ### Chunker lemmas (Chunker contract, C6) -/

/-- Joining the first `k` slices of the fixed-width split recovers the first
`chunk_size * k` characters. -/
lemma chunkText_flatten_aux (t : List Char) :
    ∀ k, ((List.range k).map
      (fun i => (t.drop (chunk_size * i)).take chunk_size)).flatten =
      t.take (chunk_size * k) := by
  intro k
  induction k with
  | zero => simp
  | succ n ih =>
    rw [List.range_succ, List.map_append, List.flatten_append, ih]
    simp only [List.map_cons, List.map_nil, List.flatten_cons, List.flatten_nil,
      List.append_nil]
    rw [Nat.mul_succ, List.take_add]

/-- Chunk round-trip: concatenating the slices reconstructs the text. -/
lemma chunkText_flatten (t : List Char) : (chunkText t).flatten = t := by
  unfold chunkText
  rw [chunkText_flatten_aux]
  apply List.take_of_length_le
  show t.length ≤ chunk_size * ((t.length + (chunk_size - 1)) / chunk_size)
  unfold chunk_size
  omega

/-- The number of slices is exactly `ceil(length / chunk_size)`. -/
lemma chunkText_length (t : List Char) :
    (chunkText t).length = (t.length + (chunk_size - 1)) / chunk_size := by
  unfold chunkText
  rw [List.length_map, List.length_range]

/-- Every slice is non-empty and at most `chunk_size` characters long. -/
lemma chunkText_bounds (t : List Char) :
    ∀ c ∈ chunkText t, c ≠ [] ∧ c.length ≤ chunk_size := by
  intro c hc
  unfold chunkText at hc
  rw [List.mem_map] at hc
  obtain ⟨i, hi, rfl⟩ := hc
  rw [List.mem_range] at hi
  constructor
  · rw [← List.length_pos, List.length_take, List.length_drop]
    unfold chunk_size at hi ⊢
    omega
  · rw [List.length_take]
    exact min_le_left _ _

/-- Claim C6 (confirmed): for every text, the fixed-width split used before
posting in the backfill path (`chunk_size = 1900`) produces only non-empty
chunks of length at most 1900, whose in-order concatenation is exactly the
input, and whose count is `ceil(len(T)/1900)`. -/
theorem c6_chunker_contract (t : List Char) :
    chunk_size = 1900 ∧
    (chunkText t).flatten = t ∧
    (∀ c ∈ chunkText t, c ≠ [] ∧ c.length ≤ 1900) ∧
    (chunkText t).length = (t.length + 1899) / 1900 :=
  ⟨rfl, chunkText_flatten t, chunkText_bounds t, chunkText_length t⟩

/-! ### Identity broker (C8) -/

/-- `find?` over an append skips a prefix containing no match. -/
lemma find?_append_of_none {α : Type} (p : α → Bool) (l1 l2 : List α)
    (h : l1.find? p = none) : (l1 ++ l2).find? p = l2.find? p := by
  induction l1 with
  | nil => rfl
  | cons a rest ih =>
    cases hpa : p a with
    | true => rw [List.find?_cons_of_pos _ hpa] at h; exact absurd h (by simp)
    | false =>
      rw [List.find?_cons_of_neg _ (by simp [hpa])] at h
      rw [List.cons_append, List.find?_cons_of_neg _ (by simp [hpa])]
      exact ih h

/-- After an acquisition, a webhook with the fixed name is present. -/
lemma findWebhook_after_acquire (hooks : List Webhook) (f1 : Nat) :
    ∃ w, findWebhook (acquireWebhook hooks f1).2 = some w := by
  unfold acquireWebhook
  cases hf : findWebhook hooks with
  | some w => exact ⟨w, hf⟩
  | none =>
    refine ⟨⟨f1, WEBHOOK_NAME⟩, ?_⟩
    show findWebhook (hooks ++ [⟨f1, WEBHOOK_NAME⟩]) = _
    unfold findWebhook at hf ⊢
    rw [find?_append_of_none _ _ _ hf]
    exact List.find?_cons_of_pos _ (by simp)

/-- Claim C8 (confirmed): repeated sequential acquisitions of the posting
identity for a channel create at most one webhook: the second acquisition
leaves the channel's webhook list unchanged, one acquisition grows the list
by at most one entry, an acquisition returns the existing webhook with the
fixed name `"TranslatorBot"` when one exists, and it creates (appends) a new
one exactly when none exists. -/
theorem c8_identity_single (hooks : List Webhook) (f1 f2 : Nat) :
    (acquireWebhook (acquireWebhook hooks f1).2 f2).2 = (acquireWebhook hooks f1).2 ∧
    (acquireWebhook hooks f1).2.length ≤ hooks.length + 1 ∧
    (∀ w, findWebhook hooks = some w → acquireWebhook hooks f1 = (w, hooks)) ∧
    (findWebhook hooks = none →
      acquireWebhook hooks f1 =
        (⟨f1, WEBHOOK_NAME⟩, hooks ++ [⟨f1, WEBHOOK_NAME⟩])) := by
  refine ⟨?_, ?_, ?_, ?_⟩
  · obtain ⟨w, hw⟩ := findWebhook_after_acquire hooks f1
    generalize hG : (acquireWebhook hooks f1).2 = L at hw ⊢
    unfold acquireWebhook
    rw [hw]
  · unfold acquireWebhook
    cases hf : findWebhook hooks with
    | some w => simp
    | none => simp
  · intro w hw
    unfold acquireWebhook
    rw [hw]
  · intro hw
    unfold acquireWebhook
    rw [hw]

/-- Witness for C8 at the empty webhook list. -/
theorem c8_identity_single_witness :
    (acquireWebhook (acquireWebhook [] 0).2 1).2 = (acquireWebhook [] 0).2 ∧
    (acquireWebhook [] 0).2.length ≤ ([] : List Webhook).length + 1 ∧
    (∀ w, findWebhook [] = some w → acquireWebhook [] 0 = (w, [])) ∧
    (findWebhook [] = none →
      acquireWebhook [] 0 = (⟨0, WEBHOOK_NAME⟩, [] ++ [⟨0, WEBHOOK_NAME⟩])) :=
  c8_identity_single [] 0 1

/-! ### Reply-quote fallback (C7) and per-chunk quote prefix (C9) -/

/-- Claim C7 (confirmed): when a destination's reply-quote translation fails,
`send_webhook` falls back to the untranslated original quote text, the primary
translated text is still posted (after the quote line), and the failure is
never escalated to the operator: the destination completes with zero
escalations and no uncaught exception, whatever the operator configuration. -/
theorem c7_reply_fallback (env : Env) (msg : Msg) (d : Nat × String)
    (r : Reply) (t : List Char)
    (hr : msg.reply = some r) (ht : env.tr d.2 msg.content = some t)
    (hrf : env.tr d.2 r.content = none)
    (hd : d.1 ≠ msg.channel) (hc : env.chOk d.1 = true) :
    resolveReplyText env d.2 r.content = r.content ∧
    liveDest env msg d =
      Except.ok ([⟨d.1, quoteHeader r.authorName r.content ++ t⟩], 0) := by
  have h1 : resolveReplyText env d.2 r.content = r.content := by
    unfold resolveReplyText; rw [hrf]
  refine ⟨h1, ?_⟩
  unfold liveDest buildPostText
  rw [if_neg hd, hc, ht, hr]
  simp [h1]

/-- Witness for C7: the translator of `env7` succeeds on the primary text of
`msg7` and fails on its quoted reply text. -/
theorem c7_reply_fallback_witness :
    resolveReplyText env7 "FR" "orig".data = "orig".data ∧
    liveDest env7 msg7 (2, "FR") =
      Except.ok ([⟨2, quoteHeader "bob".data "orig".data ++ "bon".data⟩], 0) :=
  c7_reply_fallback env7 msg7 (2, "FR") ⟨"bob".data, "orig".data⟩ "bon".data
    rfl (by decide) (by decide) (by decide) rfl

/-- Claim C9 (confirmed): in the backfill path the translated text is cut
into `chunk_size` slices first, and `send_webhook` prepends the reply-quote
line to each already-cut slice; hence each posted message's length is the
quote-line length plus the slice length, and whenever a slice is full
(`chunk_size` characters) the posted message strictly exceeds
`chunk_size = 1900` — the transport-safe bound the slicing was meant to
enforce. -/
theorem c9_quote_prepended_each_chunk (env : Env) (src : Nat) (m : Msg)
    (d : Nat × String) (r : Reply) (t : List Char)
    (hr : m.reply = some r) (ht : env.tr d.2 m.content = some t)
    (hd : d.1 ≠ src) (hc : env.chOk d.1 = true) :
    histDest env src m d =
      Except.ok ((chunkText t).map
        (fun c => (⟨d.1,
          quoteHeader r.authorName (resolveReplyText env d.2 r.content) ++ c⟩ :
            Post)), 0) ∧
    (∀ c : List Char,
      (quoteHeader r.authorName (resolveReplyText env d.2 r.content) ++ c).length =
        (quoteHeader r.authorName (resolveReplyText env d.2 r.content)).length +
          c.length) ∧
    (∀ c : List Char, c.length = chunk_size →
      chunk_size <
        (quoteHeader r.authorName (resolveReplyText env d.2 r.content) ++ c).length) := by
  refine ⟨?_, fun c => List.length_append _ _, ?_⟩
  · unfold histDest buildPostText
    rw [if_neg hd, hc, ht, hr]
    simp
  · intro c hcl
    rw [List.length_append, hcl]
    have hpos : 0 < (quoteHeader r.authorName (resolveReplyText env d.2 r.content)).length := by
      have h15 : ("↪️ Replying to ".data).length = 15 := rfl
      unfold quoteHeader
      simp only [List.length_append, h15]
      omega
    omega

/-- Witness for C9 at `env7` / `msg7`: a destination with a reply context
where the primary translation succeeds. -/
theorem c9_quote_prepended_each_chunk_witness :
    histDest env7 1 msg7 (2, "FR") =
      Except.ok ((chunkText "bon".data).map
        (fun c => (⟨2,
          quoteHeader "bob".data (resolveReplyText env7 "FR" "orig".data) ++ c⟩ :
            Post)), 0) ∧
    (∀ c : List Char,
      (quoteHeader "bob".data (resolveReplyText env7 "FR" "orig".data) ++ c).length =
        (quoteHeader "bob".data (resolveReplyText env7 "FR" "orig".data)).length +
          c.length) ∧
    (∀ c : List Char, c.length = chunk_size →
      chunk_size <
        (quoteHeader "bob".data (resolveReplyText env7 "FR" "orig".data) ++ c).length) :=
  c9_quote_prepended_each_chunk env7 1 msg7 (2, "FR") ⟨"bob".data, "orig".data⟩
    "bon".data rfl (by decide) (by decide) rfl

/-! ### Registry gating of dispatch (C2) and chunk-before-post (C3) -/

/-- Counterexample to claim C2: dispatch paths other than the live one post
even when the source channel has no registry entry. A backfill over channel 1
— which has no entry in `reg0` — still performs one external post (to the
linked channel 2), and the flag-reaction path posts without consulting any
registry at all. -/
theorem c2_unlinked_source_counterexample :
    (translate_history env0 reg0 1 [m3] store0).map
      (fun r => r.1.posts.length) = Except.ok 1 ∧
    reg0.any (fun e => e.1 == (1 : Nat)) = false ∧
    (on_raw_reaction_add env0 false "🇫🇷" 1 m3).map
      (fun r => r.1.length) = Except.ok 1 :=
  ⟨rfl, rfl, rfl⟩

/-- Claim C2 as amended: only the live-message handler checks the registry
for the source channel — a live message whose source channel has no registry
entry produces zero external posts (and no escalation). The backfill and
flag-reaction paths do not require the source channel to be linked (see the
counterexample). -/
theorem c2_live_unlinked_no_posts (env : Env) (reg : List (Nat × String))
    (msg : Msg) (h : reg.any (fun e => e.1 == msg.channel) = false) :
    on_message env reg msg = Except.ok ([], 0) := by
  unfold on_message
  simp [h]

/-- Witness for amended C2: a live message in the unlinked channel 1 against
the registry `reg0` whose only entry is channel 2. -/
theorem c2_live_unlinked_no_posts_witness :
    on_message env0 reg0 m3 = Except.ok ([], 0) :=
  c2_live_unlinked_no_posts env0 reg0 m3 rfl

/-- Counterexample to claim C3: the live path does not chunk. A live message
whose translation is the 5000-character text `t5000` is posted as a single
message of 5000 characters, not as 3 messages of at most 1900. -/
theorem c3_live_no_chunking_counterexample :
    (on_message envL reg3 msgC3).map (fun r => r.1) =
      Except.ok [⟨2, t5000⟩] ∧
    1900 < t5000.length :=
  ⟨rfl, by
    show 1900 < (List.replicate 5000 'a').length
    rw [List.length_replicate]
    omega⟩

/-- Claim C3 as amended: only the backfill path chunks; the live and reaction
paths post the whole translation as one message (see the counterexample). In
the backfill path, for an item without reply context whose translation
succeeds, the posts to a destination are exactly the `chunkText` slices in
order: they concatenate back to the full translation, each is at most 1900
characters, and a 5000-character translation yields exactly 3 posts. -/
theorem c3_backfill_chunking (env : Env) (src : Nat) (m : Msg)
    (d : Nat × String) (t : List Char)
    (hr : m.reply = none) (ht : env.tr d.2 m.content = some t)
    (hd : d.1 ≠ src) (hc : env.chOk d.1 = true) :
    histDest env src m d =
      Except.ok ((chunkText t).map (fun c => (⟨d.1, c⟩ : Post)), 0) ∧
    (chunkText t).flatten = t ∧
    (∀ c ∈ chunkText t, c.length ≤ 1900) ∧
    (t.length = 5000 → (chunkText t).length = 3) := by
  refine ⟨?_, chunkText_flatten t, fun c hc2 => (chunkText_bounds t c hc2).2, ?_⟩
  · unfold histDest buildPostText
    rw [if_neg hd, hc, ht, hr]
    simp
  · intro h5
    rw [chunkText_length, h5]
    rfl

/-- Witness for amended C3 at `envL` / `msgC3`: a backfill destination whose
translation is the 5000-character `t5000`. -/
theorem c3_backfill_chunking_witness :
    histDest envL 1 msgC3 (2, "FR") =
      Except.ok ((chunkText t5000).map (fun c => (⟨2, c⟩ : Post)), 0) ∧
    (chunkText t5000).flatten = t5000 ∧
    (∀ c ∈ chunkText t5000, c.length ≤ 1900) ∧
    (t5000.length = 5000 → (chunkText t5000).length = 3) :=
  c3_backfill_chunking envL 1 msgC3 (2, "FR") t5000 rfl rfl (by decide) rfl

/-! ### Failure isolation (C1) -/

/-- When no operator is configured, or every escalation DM succeeds, a live
destination never raises an uncaught exception. -/
lemma liveDest_ok (env : Env) (msg : Msg) (d : Nat × String)
    (hA : env.admin = false ∨ ∀ c, env.adminOk c = true) :
    ∃ x, liveDest env msg d = Except.ok x := by
  unfold liveDest
  by_cases h1 : d.1 = msg.channel
  · rw [if_pos h1]; exact ⟨_, rfl⟩
  rw [if_neg h1]
  by_cases h2 : env.chOk d.1 = false
  · rw [if_pos h2]; exact ⟨_, rfl⟩
  rw [if_neg h2]
  cases htr : env.tr d.2 msg.content with
  | some t => exact ⟨_, rfl⟩
  | none =>
    rcases hA with h | h
    · rw [h]; exact ⟨_, rfl⟩
    · cases hadm : env.admin with
      | false => exact ⟨_, rfl⟩
      | true => rw [h d.1]; exact ⟨_, rfl⟩

/-- When no operator is configured, or every escalation DM succeeds, a
backfill destination never raises an uncaught exception. -/
lemma histDest_ok (env : Env) (src : Nat) (m : Msg) (d : Nat × String)
    (hA : env.admin = false ∨ ∀ c, env.adminOk c = true) :
    ∃ x, histDest env src m d = Except.ok x := by
  unfold histDest
  by_cases h1 : d.1 = src
  · rw [if_pos h1]; exact ⟨_, rfl⟩
  rw [if_neg h1]
  by_cases h2 : env.chOk d.1 = false
  · rw [if_pos h2]; exact ⟨_, rfl⟩
  rw [if_neg h2]
  cases htr : env.tr d.2 m.content with
  | some t => exact ⟨_, rfl⟩
  | none =>
    rcases hA with h | h
    · rw [h]; exact ⟨_, rfl⟩
    · cases hadm : env.admin with
      | false => exact ⟨_, rfl⟩
      | true => rw [h d.1]; exact ⟨_, rfl⟩

/-- A destination loop in which no destination raises completes, and its
outcome is the independent per-destination outcomes combined in order. -/
lemma runDests_ok_of (f : Nat × String → Except Unit (List Post × Nat))
    (reg : List (Nat × String)) (h : ∀ d ∈ reg, ∃ x, f d = Except.ok x) :
    runDests f reg =
      Except.ok ((reg.map (fun d => (okPart (f d)).1)).flatten,
                 (reg.map (fun d => (okPart (f d)).2)).sum) := by
  induction reg with
  | nil => rfl
  | cons d rest ih =>
    obtain ⟨x, hx⟩ := h d (List.mem_cons_self d rest)
    obtain ⟨ps, es⟩ := x
    have hrest := ih (fun d2 hd2 => h d2 (List.mem_cons_of_mem d hd2))
    show (match f d with
      | Except.error e => Except.error e
      | Except.ok (ps, es) =>
        match runDests f rest with
        | Except.error e => Except.error e
        | Except.ok (ps2, es2) => Except.ok (ps ++ ps2, es + es2)) = _
    rw [hx, hrest]
    simp [okPart, hx]

/-- One history-item step never raises when escalation cannot fail. -/
lemma stepHist_ok (env : Env) (reg : List (Nat × String)) (src : Nat)
    (st : HState) (m : Msg)
    (hA : env.admin = false ∨ ∀ c, env.adminOk c = true) :
    ∃ st2, stepHist env reg src st m = Except.ok st2 := by
  unfold stepHist
  by_cases h1 : (m.authorBot || m.webhookId) = true
  · rw [if_pos h1]; exact ⟨_, rfl⟩
  rw [if_neg h1]
  by_cases h2 : m.mid ≤ st.lastId
  · rw [if_pos h2]; exact ⟨_, rfl⟩
  rw [if_neg h2]
  rw [runDests_ok_of _ _ (fun d _ => histDest_ok env src m d hA)]
  exact ⟨_, rfl⟩

/-- The whole backfill loop never raises when escalation cannot fail. -/
lemma runHist_ok (env : Env) (reg : List (Nat × String)) (src : Nat)
    (hA : env.admin = false ∨ ∀ c, env.adminOk c = true) :
    ∀ (hist : List Msg) (st : HState),
      ∃ st2, runHist env reg src hist st = Except.ok st2 := by
  intro hist
  induction hist with
  | nil => exact fun st => ⟨st, rfl⟩
  | cons m rest ih =>
    intro st
    obtain ⟨st1, hst1⟩ := stepHist_ok env reg src st m hA
    obtain ⟨st2, hst2⟩ := ih st1
    refine ⟨st2, ?_⟩
    show (match stepHist env reg src st m with
      | Except.error e => Except.error e
      | Except.ok st2 => runHist env reg src rest st2) = _
    rw [hst1]
    exact hst2

/-- Counterexample to claim C1: when a destination's translation fails, an
operator is configured, and the escalation DM about that destination itself
fails, the uncaught exception aborts the fan-out and the remaining
destinations are skipped. Under `envC1` (translation to French fails,
escalation about channel 2 fails) the dispatch of `msgC1` dies with an
uncaught exception; under the identical `envC1b` whose escalations succeed,
the later destination 3 does get its post — so the escalation failure is what
prevented destination 3 from being processed. -/
theorem c1_escalation_failure_aborts :
    on_message envC1 regC1 msgC1 = Except.error () ∧
    on_message envC1b regC1 msgC1 = Except.ok ([⟨3, "X".data⟩], 1) :=
  ⟨rfl, rfl⟩

/-- Claim C1 as amended: per-destination failures are isolated — one failing
destination never prevents the remaining destinations — provided no operator
is configured or the escalation notifications themselves succeed. Under that
proviso no dispatch path raises an uncaught exception, and a completed live
fan-out is exactly the independent combination of its per-destination
outcomes. (If an escalation DM itself fails, the exception is uncaught and
aborts the remaining destinations — see the counterexample.) -/
theorem c1_failure_isolation (env : Env) (reg : List (Nat × String))
    (msg : Msg) (src : Nat) (hist : List Msg) (store : Nat → Nat)
    (hA : env.admin = false ∨ ∀ c, env.adminOk c = true) :
    (∃ r, on_message env reg msg = Except.ok r) ∧
    (msg.authorBot = false → msg.webhookId = false →
      reg.any (fun e => e.1 == msg.channel) = true →
      on_message env reg msg =
        Except.ok ((reg.map (fun d => (okPart (liveDest env msg d)).1)).flatten,
                   (reg.map (fun d => (okPart (liveDest env msg d)).2)).sum)) ∧
    (∃ r2, translate_history env reg src hist store = Except.ok r2) := by
  have hrun := runDests_ok_of (liveDest env msg) reg
    (fun d _ => liveDest_ok env msg d hA)
  refine ⟨?_, ?_, ?_⟩
  · unfold on_message
    by_cases h1 : (msg.authorBot || msg.webhookId) = true
    · rw [if_pos h1]; exact ⟨_, rfl⟩
    rw [if_neg h1]
    by_cases h2 : (reg.any (fun e => e.1 == msg.channel)) = false
    · rw [if_pos h2]; exact ⟨_, rfl⟩
    rw [if_neg h2, hrun]
    exact ⟨_, rfl⟩
  · intro hb hw hany
    unfold on_message
    rw [hb, hw, hany]
    exact hrun
  · unfold translate_history
    by_cases hreg : reg = []
    · rw [if_pos hreg]; exact ⟨_, rfl⟩
    rw [if_neg hreg]
    obtain ⟨st2, hst⟩ := runHist_ok env reg src hA hist ⟨[], 0, store src, 0⟩
    rw [hst]
    exact ⟨_, rfl⟩

/-- Witness for amended C1 at `envC1b`: translation to French fails at
destination 2, the operator is configured, every escalation succeeds — and
all paths complete. -/
theorem c1_failure_isolation_witness :
    (∃ r, on_message envC1b regC1 msgC1 = Except.ok r) ∧
    (msgC1.authorBot = false → msgC1.webhookId = false →
      regC1.any (fun e => e.1 == msgC1.channel) = true →
      on_message envC1b regC1 msgC1 =
        Except.ok ((regC1.map (fun d => (okPart (liveDest envC1b msgC1 d)).1)).flatten,
                   (regC1.map (fun d => (okPart (liveDest envC1b msgC1 d)).2)).sum)) ∧
    (∃ r2, translate_history envC1b regC1 1 histA store0 = Except.ok r2) :=
  c1_failure_isolation envC1b regC1 msgC1 1 histA store0 (Or.inr fun _ => rfl)

/-! ### Watermark monotonicity (C4) -/

/-- One backfill step never decreases the in-memory `last_id`. -/
lemma stepHist_lastId (env : Env) (reg : List (Nat × String)) (src : Nat)
    (st : HState) (m : Msg) (st2 : HState)
    (h : stepHist env reg src st m = Except.ok st2) :
    st.lastId ≤ st2.lastId := by
  unfold stepHist at h
  by_cases h1 : (m.authorBot || m.webhookId) = true
  · rw [if_pos h1] at h
    simp only [Except.ok.injEq] at h
    exact h ▸ le_refl _
  rw [if_neg h1] at h
  by_cases h2 : m.mid ≤ st.lastId
  · rw [if_pos h2] at h
    simp only [Except.ok.injEq] at h
    exact h ▸ le_refl _
  rw [if_neg h2] at h
  cases hr : runDests (histDest env src m) reg with
  | error e => rw [hr] at h; exact absurd h (by simp)
  | ok x =>
    obtain ⟨ps, es⟩ := x
    rw [hr] at h
    simp only [Except.ok.injEq] at h
    rw [← h]
    exact Nat.le_of_lt (Nat.lt_of_not_le h2)

/-- The backfill loop never decreases the in-memory `last_id`. -/
lemma runHist_lastId_mono (env : Env) (reg : List (Nat × String)) (src : Nat) :
    ∀ (hist : List Msg) (st st2 : HState),
      runHist env reg src hist st = Except.ok st2 → st.lastId ≤ st2.lastId := by
  intro hist
  induction hist with
  | nil =>
    intro st st2 h
    simp only [runHist, Except.ok.injEq] at h
    exact h ▸ le_refl _
  | cons m rest ih =>
    intro st st2 h
    simp only [runHist] at h
    cases hs : stepHist env reg src st m with
    | error e => rw [hs] at h; exact absurd h (by simp)
    | ok st1 =>
      rw [hs] at h
      exact le_trans (stepHist_lastId env reg src st m st1 hs) (ih st1 st2 h)

/-- Counterexample to claim C4: the watermark write of `translate_history`
(line 166) is an unconditional assignment, not guarded by `marker > current`.
Two interleaved backfill runs over channel 1 that both read the stored
watermark 0: run A (history `histA`) computes `last_id = 3` and suspends; run
B (history `histB`) computes and writes 5; when run A resumes it writes 3 — a
marker strictly below the currently stored 5 — and the stored value becomes
3, rewinding the watermark instead of leaving it unchanged. -/
theorem c4_watermark_rewind_counterexample :
    (runHist env0 reg0 1 histA ⟨[], 0, store0 1, 0⟩).map
      (fun st => st.lastId) = Except.ok 3 ∧
    (runHist env0 reg0 1 histB ⟨[], 0, store0 1, 0⟩).map
      (fun st => st.lastId) = Except.ok 5 ∧
    writeWatermark store0 1 5 1 = 5 ∧
    (3 : Nat) ≤ writeWatermark store0 1 5 1 ∧
    writeWatermark (writeWatermark store0 1 5) 1 3 1 = 3 :=
  ⟨rfl, rfl, rfl, by show (3 : Nat) ≤ 5; omega, rfl⟩

/-- Claim C4 as amended: within a single (non-interleaved) backfill run the
written watermark is at least the value read at the start of the run — the
in-memory `last_id` starts at the stored value and only grows — so any
sequence of non-overlapping backfill runs leaves the stored marker
non-decreasing, and no other channel's entry is touched. The write itself is
an unconditional assignment, so an interleaved run that read a stale
watermark can still rewind the store (see the counterexample). -/
theorem c4_sequential_monotone (env : Env) (reg : List (Nat × String))
    (src : Nat) (hist : List Msg) (store : Nat → Nat) (st : HState)
    (store2 : Nat → Nat)
    (h : translate_history env reg src hist store = Except.ok (st, store2)) :
    store src ≤ store2 src ∧ ∀ c, c ≠ src → store2 c = store c := by
  unfold translate_history at h
  by_cases hreg : reg = []
  · rw [if_pos hreg] at h
    simp only [Except.ok.injEq, Prod.mk.injEq] at h
    obtain ⟨h1, h2⟩ := h
    subst h2
    exact ⟨le_refl _, fun c _ => rfl⟩
  rw [if_neg hreg] at h
  cases hr : runHist env reg src hist ⟨[], 0, store src, 0⟩ with
  | error e => rw [hr] at h; exact absurd h (by simp)
  | ok st1 =>
    rw [hr] at h
    simp only [Except.ok.injEq, Prod.mk.injEq] at h
    obtain ⟨h1, h2⟩ := h
    subst h2
    have hm : store src ≤ st1.lastId :=
      runHist_lastId_mono env reg src hist _ st1 hr
    constructor
    · show store src ≤ writeWatermark store src st1.lastId src
      unfold writeWatermark
      rw [if_pos rfl]
      exact hm
    · intro c hc
      unfold writeWatermark
      rw [if_neg hc]

/-- Witness for amended C4: the single backfill run of `histA` over channel 1
writes watermark 3, at least the 0 it read, and leaves other channels
alone. -/
theorem c4_sequential_monotone_witness :
    store0 1 ≤ writeWatermark store0 1 3 1 ∧
    ∀ c, c ≠ 1 → writeWatermark store0 1 3 c = store0 c :=
  c4_sequential_monotone env0 reg0 1 histA store0
    ⟨[⟨2, "T".data⟩], 0, 3, 1⟩ (writeWatermark store0 1 3) rfl

/-! ### Failed backfill items still counted and skipped forever (C10) -/

/-- When every destination's translation fails and escalation always
succeeds, the fan-out for an item completes with zero posts. -/
lemma runDests_allfail (env : Env) (src : Nat) (m : Msg)
    (hA : ∀ c, env.adminOk c = true) :
    ∀ reg : List (Nat × String), (∀ d ∈ reg, env.tr d.2 m.content = none) →
      ∃ e, runDests (histDest env src m) reg = Except.ok ([], e) := by
  intro reg
  induction reg with
  | nil => exact fun _ => ⟨0, rfl⟩
  | cons d rest ih =>
    intro hf
    obtain ⟨e2, he2⟩ := ih (fun d2 hd2 => hf d2 (List.mem_cons_of_mem d hd2))
    have hd := hf d (List.mem_cons_self d rest)
    have hone : ∃ e1, histDest env src m d = Except.ok ([], e1) := by
      unfold histDest
      by_cases h1 : d.1 = src
      · rw [if_pos h1]; exact ⟨0, rfl⟩
      rw [if_neg h1]
      by_cases h2 : env.chOk d.1 = false
      · rw [if_pos h2]; exact ⟨0, rfl⟩
      rw [if_neg h2, hd]
      cases hadm : env.admin with
      | false => exact ⟨0, rfl⟩
      | true => rw [hA d.1]; exact ⟨1, rfl⟩
    obtain ⟨e1, he1⟩ := hone
    refine ⟨e1 + e2, ?_⟩
    show (match histDest env src m d with
      | Except.error e => Except.error e
      | Except.ok (ps, es) =>
        match runDests (histDest env src m) rest with
        | Except.error e => Except.error e
        | Except.ok (ps2, es2) => Except.ok (ps ++ ps2, es + es2)) = _
    rw [he1, he2]
    rfl

/-- Claim C10 (confirmed): a backfill item for which every destination fails
(every translation raises, escalations succeeding) is nevertheless counted in
the reported relayed total, and the stored watermark still advances to that
item's marker — so an immediately following backfill of the same channel with
the same history relays (and retries) nothing. -/
theorem c10_failed_item_advances (env : Env) (reg : List (Nat × String))
    (src : Nat) (m : Msg) (store : Nat → Nat)
    (hA : ∀ c, env.adminOk c = true) (hreg : reg ≠ [])
    (hb : m.authorBot = false) (hw : m.webhookId = false)
    (hid : store src < m.mid)
    (hfail : ∀ d ∈ reg, env.tr d.2 m.content = none) :
    ∃ e, translate_history env reg src [m] store =
        Except.ok (⟨[], e, m.mid, 1⟩, writeWatermark store src m.mid) ∧
      translate_history env reg src [m] (writeWatermark store src m.mid) =
        Except.ok (⟨[], 0, m.mid, 0⟩,
          writeWatermark (writeWatermark store src m.mid) src m.mid) := by
  obtain ⟨e, he⟩ := runDests_allfail env src m hA reg hfail
  have hw1 : writeWatermark store src m.mid src = m.mid := by
    unfold writeWatermark
    rw [if_pos rfl]
  refine ⟨e, ?_, ?_⟩
  · unfold translate_history
    rw [if_neg hreg]
    have hstep : stepHist env reg src ⟨[], 0, store src, 0⟩ m =
        Except.ok ⟨[], e, m.mid, 1⟩ := by
      unfold stepHist
      rw [hb, hw]
      rw [if_neg (Nat.not_le.mpr hid)]
      rw [he]
      simp
    have hrun : runHist env reg src [m] ⟨[], 0, store src, 0⟩ =
        Except.ok ⟨[], e, m.mid, 1⟩ := by
      simp only [runHist]
      rw [hstep]
    rw [hrun]
  · unfold translate_history
    rw [if_neg hreg]
    have hstep2 : stepHist env reg src
        ⟨[], 0, writeWatermark store src m.mid src, 0⟩ m =
        Except.ok ⟨[], 0, writeWatermark store src m.mid src, 0⟩ := by
      unfold stepHist
      rw [hb, hw, hw1]
      rw [if_pos (le_refl m.mid)]
      rfl
    have hrun2 : runHist env reg src [m]
        ⟨[], 0, writeWatermark store src m.mid src, 0⟩ =
        Except.ok ⟨[], 0, writeWatermark store src m.mid src, 0⟩ := by
      simp only [runHist]
      rw [hstep2]
    rw [hrun2]
    simp only [hw1]

/-- Witness for C10: under the always-failing translator `envFail`, the
backfill of `[m3]` over channel 1 reports one relayed item, posts nothing and
advances the watermark to 3; the repeated run relays nothing. -/
theorem c10_failed_item_advances_witness :
    ∃ e, translate_history envFail reg0 1 [m3] store0 =
        Except.ok (⟨[], e, m3.mid, 1⟩, writeWatermark store0 1 m3.mid) ∧
      translate_history envFail reg0 1 [m3] (writeWatermark store0 1 m3.mid) =
        Except.ok (⟨[], 0, m3.mid, 0⟩,
          writeWatermark (writeWatermark store0 1 m3.mid) 1 m3.mid) :=
  c10_failed_item_advances envFail reg0 1 m3 store0 (fun _ => rfl) (by decide)
    rfl rfl (by decide) (fun d _ => rfl)

/-! ### Exact characterization of a backfill run (C5) -/

/-- Unfolding of the running maximum over a cons. -/
lemma maxMid_cons (L : Nat) (m : Msg) (l : List Msg) :
    maxMid L (m :: l) = maxMid (max L m.mid) l := rfl

/-- The running maximum dominates its starting value. -/
lemma le_maxMid : ∀ (l : List Msg) (L : Nat), L ≤ maxMid L l := by
  intro l
  induction l with
  | nil => intro L; exact le_refl L
  | cons m rest ih =>
    intro L
    rw [maxMid_cons]
    exact le_trans (le_max_left L m.mid) (ih (max L m.mid))

/-- The running maximum dominates every member's marker. -/
lemma mem_le_maxMid : ∀ (l : List Msg) (L : Nat) (m : Msg),
    m ∈ l → m.mid ≤ maxMid L l := by
  intro l
  induction l with
  | nil => intro L m hm; exact absurd hm (List.not_mem_nil m)
  | cons a rest ih =>
    intro L m hm
    rw [maxMid_cons]
    rcases List.mem_cons.mp hm with h | h
    · subst h
      exact le_trans (le_max_right L m.mid) (le_maxMid rest (max L m.mid))
    · exact ih (max L a.mid) m h

/-- The running maximum is either the start value or a member's marker. -/
lemma maxMid_eq_or_mem : ∀ (l : List Msg) (L : Nat),
    maxMid L l = L ∨ ∃ m, m ∈ l ∧ maxMid L l = m.mid := by
  intro l
  induction l with
  | nil => intro L; exact Or.inl rfl
  | cons a rest ih =>
    intro L
    rw [maxMid_cons]
    rcases ih (max L a.mid) with h | ⟨m, hm, h⟩
    · rcases le_total a.mid L with hle | hle
      · left; rw [h, max_eq_left hle]
      · right
        exact ⟨a, List.mem_cons_self a rest, by rw [h, max_eq_right hle]⟩
    · right; exact ⟨m, List.mem_cons_of_mem a hm, h⟩

/-- A backfill loop in which every item is filtered out leaves the state
unchanged. -/
lemma runHist_skip (env : Env) (reg : List (Nat × String)) (src : Nat) :
    ∀ (hist : List Msg) (st : HState),
      (∀ m ∈ hist, (m.authorBot || m.webhookId) = true ∨ m.mid ≤ st.lastId) →
      runHist env reg src hist st = Except.ok st := by
  intro hist
  induction hist with
  | nil => intro st _; rfl
  | cons m rest ih =>
    intro st h
    have hstep : stepHist env reg src st m = Except.ok st := by
      unfold stepHist
      rcases h m (List.mem_cons_self m rest) with h1 | h1
      · rw [if_pos h1]
      · by_cases h2 : (m.authorBot || m.webhookId) = true
        · rw [if_pos h2]
        · rw [if_neg h2, if_pos h1]
    simp only [runHist]
    rw [hstep]
    exact ih st (fun m2 hm2 => h m2 (List.mem_cons_of_mem m hm2))

/-- Master characterization of the backfill loop over a strictly
oldest-first-sorted history, when no escalation can fail: the relayed count
grows by exactly the number of items passing the filter against the starting
`last_id`, and the final `last_id` is the running maximum of the filtered
markers. -/
lemma runHist_master (env : Env) (reg : List (Nat × String)) (src : Nat)
    (hA : env.admin = false ∨ ∀ c, env.adminOk c = true) :
    ∀ (hist : List Msg), hist.Pairwise (fun a b => a.mid < b.mid) →
    ∀ (P : List Post) (E L C : Nat),
      ∃ P2 E2, runHist env reg src hist ⟨P, E, L, C⟩ =
        Except.ok ⟨P2, E2, maxMid L (hist.filter (elig L)),
          C + (hist.filter (elig L)).length⟩ := by
  intro hist
  induction hist with
  | nil =>
    intro _ P E L C
    exact ⟨P, E, by simp [runHist, maxMid]⟩
  | cons m rest ih =>
    intro hpw P E L C
    rw [List.pairwise_cons] at hpw
    obtain ⟨hm, hrest⟩ := hpw
    by_cases hskip : (m.authorBot || m.webhookId) = true
    · have hstep : stepHist env reg src ⟨P, E, L, C⟩ m =
          Except.ok ⟨P, E, L, C⟩ := by
        unfold stepHist
        rw [if_pos hskip]
      have hfm : elig L m = false := by
        have h2 : m.authorBot = true ∨ m.webhookId = true := by
          simpa using hskip
        unfold elig
        rcases h2 with h | h <;> simp [h]
      have hfil : (m :: rest).filter (elig L) = rest.filter (elig L) := by
        rw [List.filter_cons, hfm]
        simp
      obtain ⟨P2, E2, hrun⟩ := ih hrest P E L C
      refine ⟨P2, E2, ?_⟩
      simp only [runHist]
      rw [hstep, hfil]
      exact hrun
    · by_cases hle : m.mid ≤ L
      · have hstep : stepHist env reg src ⟨P, E, L, C⟩ m =
            Except.ok ⟨P, E, L, C⟩ := by
          unfold stepHist
          rw [if_neg hskip, if_pos hle]
        have hfm : elig L m = false := by
          unfold elig
          rw [decide_eq_false (Nat.not_lt.mpr hle)]
          simp
        have hfil : (m :: rest).filter (elig L) = rest.filter (elig L) := by
          rw [List.filter_cons, hfm]
          simp
        obtain ⟨P2, E2, hrun⟩ := ih hrest P E L C
        refine ⟨P2, E2, ?_⟩
        simp only [runHist]
        rw [hstep, hfil]
        exact hrun
      · have hLm : L < m.mid := Nat.lt_of_not_le hle
        simp only [Bool.or_eq_true, not_or, Bool.not_eq_true] at hskip
        have helig : elig L m = true := by
          unfold elig
          simp [hskip.1, hskip.2, hLm]
        have hdest := runDests_ok_of (histDest env src m) reg
          (fun d _ => histDest_ok env src m d hA)
        have hstep : stepHist env reg src ⟨P, E, L, C⟩ m =
            Except.ok ⟨P ++ (reg.map
                (fun d => (okPart (histDest env src m d)).1)).flatten,
              E + (reg.map (fun d => (okPart (histDest env src m d)).2)).sum,
              m.mid, C + 1⟩ := by
          unfold stepHist
          have hbw : ¬((m.authorBot || m.webhookId) = true) := by
            simp [hskip.1, hskip.2]
          rw [if_neg hbw, if_neg hle, hdest]
        have hfilrest : rest.filter (elig L) = rest.filter (elig m.mid) := by
          apply List.filter_congr
          intro x hx
          have hx1 : m.mid < x.mid := hm x hx
          have hx2 : L < x.mid := lt_trans hLm hx1
          unfold elig
          rw [decide_eq_true hx2, decide_eq_true hx1]
        have hfil : (m :: rest).filter (elig L) =
            m :: rest.filter (elig m.mid) := by
          rw [List.filter_cons, helig, hfilrest]
          simp
        obtain ⟨P2, E2, hrun⟩ := ih hrest
          (P ++ (reg.map (fun d => (okPart (histDest env src m d)).1)).flatten)
          (E + (reg.map (fun d => (okPart (histDest env src m d)).2)).sum)
          m.mid (C + 1)
        refine ⟨P2, E2, ?_⟩
        simp only [runHist]
        rw [hstep, hfil, maxMid_cons, max_eq_right (le_of_lt hLm)]
        have hlen : C + (m :: rest.filter (elig m.mid)).length =
            (C + 1) + (rest.filter (elig m.mid)).length := by
          simp only [List.length_cons]
          omega
        rw [hlen]
        exact hrun

/-- Overwriting the same channel's watermark twice keeps only the last
value. -/
lemma writeWatermark_overwrite (s : Nat → Nat) (c w v : Nat) :
    writeWatermark (writeWatermark s c w) c v = writeWatermark s c v := by
  funext x
  unfold writeWatermark
  by_cases h : x = c
  · rw [if_pos h, if_pos h]
  · rw [if_neg h, if_neg h, if_neg h]

/-- Counterexample to claim C5: the backfill filter skips every bot-authored
item, not only relay(webhook)-authored ones. The item `mBot` is bot-authored
but not webhook-authored — not posted by the relay, which posts through
webhooks — and its marker 5 exceeds the stored watermark 0, yet a backfill
over `[mBot]` relays zero items (the claim's "exactly those ... not
relay-authored" set contains it). -/
theorem c5_bot_item_counterexample :
    (translate_history env0 reg0 1 [mBot] store0).map (fun r => r.1.relayed) =
      Except.ok 0 ∧
    mBot.authorBot = true ∧ mBot.webhookId = false ∧ store0 1 < mBot.mid :=
  ⟨rfl, rfl, rfl, by decide⟩

/-- Claim C5 as amended: over a strictly oldest-first history and with
escalation unable to fail, a backfill relays exactly those retrieved items
whose marker exceeds the stored watermark and that are neither bot-authored
nor webhook-authored (the loop-prevention filter excludes all bot and webhook
messages, not only relay-authored ones); it then stores as watermark the
running maximum of the relayed markers — the maximum marker among the relayed
items when any were relayed — and an immediate second backfill with unchanged
history and watermark relays zero items and leaves the stored watermark
unchanged. -/
theorem c5_backfill_exact (env : Env) (reg : List (Nat × String)) (src : Nat)
    (hist : List Msg) (store : Nat → Nat)
    (hA : env.admin = false ∨ ∀ c, env.adminOk c = true) (hreg : reg ≠ [])
    (hsort : hist.Pairwise (fun a b => a.mid < b.mid)) :
    ∃ P2 E2,
      translate_history env reg src hist store =
        Except.ok (⟨P2, E2,
            maxMid (store src) (hist.filter (elig (store src))),
            (hist.filter (elig (store src))).length⟩,
          writeWatermark store src
            (maxMid (store src) (hist.filter (elig (store src))))) ∧
      (hist.filter (elig (store src)) ≠ [] →
        ∃ m, m ∈ hist.filter (elig (store src)) ∧
          maxMid (store src) (hist.filter (elig (store src))) = m.mid ∧
          ∀ m2 ∈ hist.filter (elig (store src)), m2.mid ≤ m.mid) ∧
      translate_history env reg src hist
          (writeWatermark store src
            (maxMid (store src) (hist.filter (elig (store src))))) =
        Except.ok (⟨[], 0,
            maxMid (store src) (hist.filter (elig (store src))), 0⟩,
          writeWatermark store src
            (maxMid (store src) (hist.filter (elig (store src))))) := by
  obtain ⟨P2, E2, hrun⟩ :=
    runHist_master env reg src hA hist hsort [] 0 (store src) 0
  rw [Nat.zero_add] at hrun
  have hv : writeWatermark store src
      (maxMid (store src) (hist.filter (elig (store src)))) src =
      maxMid (store src) (hist.filter (elig (store src))) := by
    unfold writeWatermark
    rw [if_pos rfl]
  refine ⟨P2, E2, ?_, ?_, ?_⟩
  · unfold translate_history
    rw [if_neg hreg, hrun]
  · intro hne
    rcases maxMid_eq_or_mem (hist.filter (elig (store src))) (store src)
      with h | ⟨m, hm, h⟩
    · obtain ⟨m, hm⟩ := List.exists_mem_of_ne_nil _ hne
      have h2 := (List.mem_filter.mp hm).2
      have h3 : store src < m.mid := by
        unfold elig at h2
        simp only [Bool.and_eq_true, decide_eq_true_eq] at h2
        exact h2.2
      have h4 := mem_le_maxMid (hist.filter (elig (store src))) (store src) m hm
      rw [h] at h4
      omega
    · refine ⟨m, hm, h, fun m2 hm2 => ?_⟩
      have h5 := mem_le_maxMid (hist.filter (elig (store src))) (store src) m2 hm2
      rw [h] at h5
      exact h5
  · unfold translate_history
    rw [if_neg hreg]
    have hskipall : ∀ m ∈ hist, (m.authorBot || m.webhookId) = true ∨
        m.mid ≤ writeWatermark store src
          (maxMid (store src) (hist.filter (elig (store src)))) src := by
      intro m hm
      by_cases hbw : (m.authorBot || m.webhookId) = true
      · exact Or.inl hbw
      right
      rw [hv]
      by_cases hlt : store src < m.mid
      · have hbf : elig (store src) m = true := by
          simp only [Bool.or_eq_true, not_or, Bool.not_eq_true] at hbw
          unfold elig
          simp [hbw.1, hbw.2, hlt]
        exact mem_le_maxMid _ _ m (List.mem_filter.mpr ⟨hm, hbf⟩)
      · have h6 := le_maxMid (hist.filter (elig (store src))) (store src)
        omega
    rw [runHist_skip env reg src hist _ hskipall]
    rw [hv]
    simp only [writeWatermark_overwrite]

/-- Witness for amended C5: the two-item sorted history `histB` over channel
1 with watermark 0 relays both items, stores watermark 5, and a repeated run
relays nothing. -/
theorem c5_backfill_exact_witness :
    ∃ P2 E2,
      translate_history env0 reg0 1 histB store0 =
        Except.ok (⟨P2, E2,
            maxMid (store0 1) (histB.filter (elig (store0 1))),
            (histB.filter (elig (store0 1))).length⟩,
          writeWatermark store0 1
            (maxMid (store0 1) (histB.filter (elig (store0 1))))) ∧
      (histB.filter (elig (store0 1)) ≠ [] →
        ∃ m, m ∈ histB.filter (elig (store0 1)) ∧
          maxMid (store0 1) (histB.filter (elig (store0 1))) = m.mid ∧
          ∀ m2 ∈ histB.filter (elig (store0 1)), m2.mid ≤ m.mid) ∧
      translate_history env0 reg0 1 histB
          (writeWatermark store0 1
            (maxMid (store0 1) (histB.filter (elig (store0 1))))) =
        Except.ok (⟨[], 0,
            maxMid (store0 1) (histB.filter (elig (store0 1))), 0⟩,
          writeWatermark store0 1
            (maxMid (store0 1) (histB.filter (elig (store0 1))))) :=
  c5_backfill_exact env0 reg0 1 histB store0 (Or.inl rfl) (by decide) (by decide)
